import Mathlib

/- A shallow embedding of the EmonHub core (src/src/emonhub.py): the
   reconciliation pass `_update_settings` (lines 124-205), the fan-out
   logic of `run` (lines 86-100), the SIGINT-driven exit protocol
   (lines 78, 117-122) and `close` (lines 105-115).  External
   collaborators (the concrete listener and dispatcher classes from
   emonhub_listener / emonhub_dispatcher, which are not in this
   repository's source tree) are modelled from the spec as opaque
   factories with a success/failure behaviour. -/

namespace EmonHub

/-- Settings mappings (init_settings, runtime_settings, nodes): flat
string-keyed association lists; the core only compares them for equality,
passes them to constructors and looks up single keys. -/
abbrev SMap := List (String × String)

/-- A decoded telemetry record (ValueRecord), modelled by an identity so
that aliasing (the same object placed on several queues) is observable. -/
abbrev Rec := Nat

/-- Python dict lookup d.get(k): none when the key is absent. -/
def lookupA {β : Type} (k : String) : List (String × β) → Option β
  | [] => none
  | (k', v) :: t => if k' = k then some v else lookupA k t

/-- Python dict assignment d[k] = v: replace in place if present,
otherwise append (dict insertion order). -/
def setA {β : Type} (k : String) (v : β) : List (String × β) → List (String × β)
  | [] => [(k, v)]
  | (k', v') :: t => if k' = k then (k, v) :: t else (k', v') :: setA k v t

/-- Python dict deletion del d[k]. -/
def removeA {β : Type} (k : String) : List (String × β) → List (String × β)
  | [] => []
  | (k', v') :: t => if k' = k then t else (k', v') :: removeA k t

/-- Keys of an association list are pairwise distinct (always true of a
Python dict, whose keys are unique). -/
def keysNodup {β : Type} (l : List (String × β)) : Prop :=
  (l.map Prod.fst).Nodup

instance {β : Type} (l : List (String × β)) : Decidable (keysNodup l) :=
  inferInstanceAs (Decidable (l.map Prod.fst).Nodup)

/-- One named configuration unit out of the `listeners` or `dispatchers`
section of the settings snapshot: the optional 'type' entry and the
'init_settings' / 'runtime_settings' sub-mappings. -/
structure Descriptor where
  type? : Option String
  init_settings : SMap
  runtime_settings : SMap
deriving DecidableEq

/-- A live dispatcher handle.  `init_settings` is the copy recorded by
`_update_settings` (line 158); `settings` is the handle's `_settings`
as applied by set() (line 170, read by the pause check at line 96);
`buffer` is `buffer._data_buffer` (lines 137-138, 161); `stop` is the
cooperative stop flag (lines 112, 145). -/
structure Dispatcher where
  name : String
  init_settings : SMap
  settings : SMap
  buffer : List Rec
  stop : Bool
deriving DecidableEq

/-- A live listener handle.  `init_settings` as recorded at line 193,
`settings` as applied by set() (line 202), `closed` records that close()
was called on the handle (lines 108-109, 181). -/
structure Listener where
  name : String
  init_settings : SMap
  settings : SMap
  closed : Bool
deriving DecidableEq

/-- The settings snapshot handed over by the interface: `dispatchers`
and `listeners` sections (name-keyed descriptor dicts) and the optional
`nodes` section (lines 204-205).  The `hub.loglevel` entry only drives
logging and is not modelled. -/
structure Snapshot where
  dispatchers : List (String × Descriptor)
  listeners : List (String × Descriptor)
  nodes? : Option SMap
deriving DecidableEq

/-- The mutable state of the EmonHub object: `_dispatchers`,
`_listeners`, `_queue`, `temp_buffer`, the shared `ehc.nodelist` table
and the `_exit` flag. -/
structure Hub where
  dispatchers : List (String × Dispatcher)
  listeners : List (String × Listener)
  queue : List (String × List Rec)
  temp_buffer : List (String × List Rec)
  nodelist : Option SMap
  exit : Bool
deriving DecidableEq

/-- Python exceptions that can escape `_update_settings`: KeyError from
`settings['dispatchers'][name]` / `settings['listeners'][name]` on an
unlisted live name (lines 136, 175), and AttributeError from
`getattr(ehd, ...)` / `getattr(ehl, ...)` on an unknown type string
(lines 157, 192), which is not caught by the except clauses (they catch
only EmonHubDispatcherInitError / EmonHubListenerInitError). -/
inductive PyErr
  | keyError
  | attributeError
deriving DecidableEq

/-- Modelled from the spec: the type-name-keyed factories of
emonhub_dispatcher / emonhub_listener (not under src/).  `dispTypes` /
`lisTypes` are the attribute names getattr resolves; `dispInitOk` /
`lisInitOk` say whether the constructor accepts the given init_settings
(false = it raises its InitError). -/
structure Factories where
  dispTypes : List String
  dispInitOk : String → SMap → Bool
  lisTypes : List String
  lisInitOk : String → SMap → Bool

/-- Modelled from the spec: a freshly constructed dispatcher
(name and queue passed to the constructor, init_settings as keyword
parameters): its retained buffer starts empty, its stop flag unset. -/
def mkDispatcher (nm : String) (init : SMap) : Dispatcher :=
  { name := nm, init_settings := init, settings := [], buffer := [], stop := false }

/-- Modelled from the spec: a freshly constructed listener; the hub tags
it with its name via setattr (line 200). -/
def mkListener (nm : String) (init : SMap) : Listener :=
  { name := nm, init_settings := init, settings := [], closed := false }

/-- The dispatcher deletion loop of `_update_settings` (lines 134-146):
for every live dispatcher name, compare its recorded init_settings with
`settings['dispatchers'][name]['init_settings']` (KeyError when the name
is unlisted); on a difference capture a non-empty buffer into
temp_buffer and delete; otherwise keep only when the descriptor still
carries a 'type'.  The queue map is not touched.  Returns the surviving
dispatchers and the accumulated temp_buffer. -/
def dispDeletePass (snap : List (String × Descriptor)) :
    List (String × Dispatcher) → List (String × List Rec) →
    Except PyErr (List (String × Dispatcher) × List (String × List Rec))
  | [], temp => .ok ([], temp)
  | (nm, d) :: rest, temp =>
    match lookupA nm snap with
    | none => .error .keyError
    | some dis =>
      if d.init_settings ≠ dis.init_settings then
        dispDeletePass snap rest
          (if d.buffer ≠ [] then setA nm d.buffer temp else temp)
      else if dis.type?.isSome then
        (dispDeletePass snap rest temp).map (fun p => ((nm, d) :: p.1, p.2))
      else
        dispDeletePass snap rest temp

/-- The dispatcher creation loop of `_update_settings` (lines 147-170):
for every descriptor, if the name is not live and has a 'type', first
assign a fresh empty queue to `_queue[name]`, then resolve the type
(AttributeError on an unknown name escapes) and run the constructor
(its InitError is caught: log and skip, leaving the queue entry in
place).  On success record init_settings, transplant a captured buffer
from temp_buffer, register the handle and apply runtime_settings via
set(); for an already-live name only set() is applied. -/
def dispCreatePass (F : Factories) :
    List (String × Descriptor) →
    List (String × Dispatcher) → List (String × List Rec) → List (String × List Rec) →
    Except PyErr (List (String × Dispatcher) × List (String × List Rec) × List (String × List Rec))
  | [], live, q, temp => .ok (live, q, temp)
  | (nm, dis) :: rest, live, q, temp =>
    match lookupA nm live with
    | some d =>
      dispCreatePass F rest (setA nm { d with settings := dis.runtime_settings } live) q temp
    | none =>
      match dis.type? with
      | none => dispCreatePass F rest live q temp
      | some t =>
        if t ∈ F.dispTypes then
          if F.dispInitOk t dis.init_settings then
            dispCreatePass F rest
              (live ++ [(nm,
                { mkDispatcher nm dis.init_settings with
                    buffer := (lookupA nm temp).getD [],
                    settings := dis.runtime_settings })])
              (setA nm ([] : List Rec) q)
              (removeA nm temp)
          else
            dispCreatePass F rest live (setA nm ([] : List Rec) q) temp
        else
          .error .attributeError

/-- The listener deletion loop of `_update_settings` (lines 173-183):
the branch for differing init_settings executes `pass` and therefore
falls through to close-and-delete, exactly like the missing-type case;
a listener is kept only when its init_settings are unchanged and its
descriptor still has a 'type'.  Returns the survivors and the names on
which close() was called, in iteration order. -/
def lisDeletePass (snap : List (String × Descriptor)) :
    List (String × Listener) → List String →
    Except PyErr (List (String × Listener) × List String)
  | [], closed => .ok ([], closed)
  | (nm, l) :: rest, closed =>
    match lookupA nm snap with
    | none => .error .keyError
    | some lis =>
      if l.init_settings ≠ lis.init_settings then
        lisDeletePass snap rest (closed ++ [nm])
      else if lis.type?.isSome then
        (lisDeletePass snap rest closed).map (fun p => ((nm, l) :: p.1, p.2))
      else
        lisDeletePass snap rest (closed ++ [nm])

/-- The listener creation loop of `_update_settings` (lines 184-202):
like the dispatcher creation loop but with no queue and no buffer
transplant; the handle is tagged with its name after construction. -/
def lisCreatePass (F : Factories) :
    List (String × Descriptor) → List (String × Listener) →
    Except PyErr (List (String × Listener))
  | [], live => .ok live
  | (nm, lis) :: rest, live =>
    match lookupA nm live with
    | some l =>
      lisCreatePass F rest (setA nm { l with settings := lis.runtime_settings } live)
    | none =>
      match lis.type? with
      | none => lisCreatePass F rest live
      | some t =>
        if t ∈ F.lisTypes then
          if F.lisInitOk t lis.init_settings then
            lisCreatePass F rest
              (live ++ [(nm, { mkListener nm lis.init_settings with
                                 settings := lis.runtime_settings })])
          else
            lisCreatePass F rest live
        else
          .error .attributeError

/-- EmonHub._update_settings (lines 124-205): reset temp_buffer to {},
run the dispatcher deletion and creation loops, the listener deletion
and creation loops, then publish the 'nodes' section to ehc.nodelist if
present.  The second component of the result is the list of listener
names that were closed during the tick. -/
def updateSettings (F : Factories) (s : Snapshot) (h : Hub) :
    Except PyErr (Hub × List String) :=
  match dispDeletePass s.dispatchers h.dispatchers [] with
  | .error e => .error e
  | .ok (disp1, temp1) =>
    match dispCreatePass F s.dispatchers disp1 h.queue temp1 with
    | .error e => .error e
    | .ok (disp2, q2, temp2) =>
      match lisDeletePass s.listeners h.listeners [] with
      | .error e => .error e
      | .ok (lis1, closedNames) =>
        match lisCreatePass F s.listeners lis1 with
        | .error e => .error e
        | .ok lis2 =>
          .ok ({ dispatchers := disp2, listeners := lis2, queue := q2,
                 temp_buffer := temp2,
                 nodelist := match s.nodes? with
                             | some n => some n
                             | none => h.nodelist,
                 exit := h.exit }, closedNames)

/-- The exact pause allowlist of run() (line 98). -/
def pauseTruthy : List String :=
  ["i", "I", "in", "In", "IN", "t", "T", "true", "True", "TRUE"]

/-- The pause check of run() (lines 96-98): the dispatcher's `_settings`
contains 'pause' and its value is in the allowlist. -/
def pausedFor (d : Dispatcher) : Bool :=
  match lookupA "pause" d.settings with
  | some v => pauseTruthy.contains v
  | none => false

/-- A put on `_queue[name]` (line 100): append the record (the very same
reference, no copy is taken) to the named FIFO.  In every reachable state
a live dispatcher has a queue entry; an absent entry is left alone. -/
def putQ (nm : String) (r : Rec) : List (String × List Rec) → List (String × List Rec)
  | [] => []
  | (k, xs) :: t => if k = nm then (k, xs ++ [r]) :: t else (k, xs) :: putQ nm r t

/-- The fan-out of one produced record over the dispatcher set
(lines 94-100): skip paused dispatchers, put on every other queue. -/
def fanoutOne (disp : List (String × Dispatcher)) (r : Rec)
    (q : List (String × List Rec)) : List (String × List Rec) :=
  match disp with
  | [] => q
  | (nm, d) :: rest =>
    if pausedFor d then fanoutOne rest r q
    else fanoutOne rest r (putQ nm r q)

/-- Fan-out of a whole sequence of produced records, in produced order. -/
def fanoutAll (disp : List (String × Dispatcher)) (rs : List Rec)
    (q : List (String × List Rec)) : List (String × List Rec) :=
  rs.foldl (fun q r => fanoutOne disp r q) q

/-- The records produced by one poll sweep: the i-th listener's read()
result, skipping the None results. -/
def producedRecs (listeners : List (String × Listener)) (reads : List (Option Rec)) :
    List Rec :=
  (listeners.zip reads).filterMap (fun p => p.2)

/-- The external events of one loop iteration: the settings snapshot if
check_settings() reported a change, each listener's read() result, and
whether SIGINT was delivered during the iteration (the handler only sets
the exit flag; the loop condition is re-checked at the top of the next
iteration). -/
structure IterInput where
  settings? : Option Snapshot
  reads : List (Option Rec)
  sigint : Bool

/-- One iteration of the run() loop body (lines 81-103): optional
settings update, then one poll-and-fanout sweep over all listeners.
Returns the new hub state and the names of the listeners polled. -/
def iterOnce (F : Factories) (h : Hub) (inp : IterInput) :
    Except PyErr (Hub × List String) :=
  match (match inp.settings? with
         | some s => (updateSettings F s h).map Prod.fst
         | none => .ok h) with
  | .error e => .error e
  | .ok h1 =>
    .ok ({ h1 with
             queue := fanoutAll h1.dispatchers (producedRecs h1.listeners inp.reads) h1.queue,
             exit := h1.exit || inp.sigint },
         h1.listeners.map Prod.fst)

/-- The run() loop (lines 78-103): while not `_exit`, run one iteration;
the schedule of external inputs is the fuel.  Accumulates the names of
all listener polls performed. -/
def runLoop (F : Factories) : List IterInput → Hub → Except PyErr (Hub × List String)
  | [], h => .ok (h, [])
  | inp :: rest, h =>
    if h.exit then .ok (h, [])
    else
      match iterOnce F h inp with
      | .error e => .error e
      | .ok (h1, polled) =>
        match runLoop F rest h1 with
        | .error e => .error e
        | .ok (h2, ps) => .ok (h2, polled ++ ps)

/-- EmonHub.close (lines 105-115): close() every live listener and set
the stop flag on every live dispatcher. -/
def closeHub (h : Hub) : Hub :=
  { h with
      listeners := h.listeners.map (fun p => (p.1, { p.2 with closed := true })),
      dispatchers := h.dispatchers.map (fun p => (p.1, { p.2 with stop := true })) }

/-- Pointwise effect of the dispatcher deletion loop on one live-set
entry: keep the handle only if its init_settings are unchanged and the
descriptor still has a 'type'. -/
def dDelSpec : Option Dispatcher → Option Descriptor → Option Dispatcher
  | some d, some dis =>
    if d.init_settings = dis.init_settings ∧ dis.type?.isSome then some d else none
  | some _, none => none
  | none, _ => none

/-- Pointwise effect of the dispatcher deletion loop on one temp_buffer
entry: capture the buffer exactly when the init_settings differ and the
buffer is non-empty. -/
def dDelTempSpec : Option Dispatcher → Option Descriptor → Option (List Rec) → Option (List Rec)
  | some d, some dis, old =>
    if d.init_settings ≠ dis.init_settings ∧ d.buffer ≠ [] then some d.buffer else old
  | _, _, old => old

/-- Pointwise effect of the dispatcher creation loop on one live-set
entry, given the descriptor, the post-deletion handle and the captured
temp_buffer entry for that name. -/
def dCreSpec (F : Factories) (nm : String) :
    Option Descriptor → Option Dispatcher → Option (List Rec) → Option Dispatcher
  | some dis, some d, _ => some { d with settings := dis.runtime_settings }
  | some dis, none, tb =>
    match dis.type? with
    | none => none
    | some t =>
      if F.dispInitOk t dis.init_settings then
        some { name := nm, init_settings := dis.init_settings,
               settings := dis.runtime_settings, buffer := tb.getD [], stop := false }
      else none
  | none, d?, _ => d?

/-- Pointwise effect of the dispatcher creation loop on one queue entry:
a fresh empty queue is assigned whenever a typed descriptor has no live
handle, whether or not the construction then succeeds. -/
def dCreQSpec : Option Descriptor → Option Dispatcher → Option (List Rec) → Option (List Rec)
  | some dis, none, oldq => if dis.type?.isSome then some [] else oldq
  | _, _, oldq => oldq

/-- Pointwise effect of the dispatcher creation loop on one temp_buffer
entry: a successful creation consumes the captured entry. -/
def dCreTempSpec (F : Factories) :
    Option Descriptor → Option Dispatcher → Option (List Rec) → Option (List Rec)
  | some dis, none, oldt =>
    match dis.type? with
    | none => oldt
    | some t => if F.dispInitOk t dis.init_settings then none else oldt
  | _, _, oldt => oldt

/-- Pointwise effect of the listener deletion loop: a listener survives
only if its init_settings are unchanged and its descriptor still has a
'type' (the differing-init branch falls through to deletion). -/
def lDelSpec : Option Listener → Option Descriptor → Option Listener
  | some l, some lis =>
    if l.init_settings = lis.init_settings ∧ lis.type?.isSome then some l else none
  | some _, none => none
  | none, _ => none

/-- Pointwise effect of the listener creation loop. -/
def lCreSpec (F : Factories) (nm : String) :
    Option Descriptor → Option Listener → Option Listener
  | some lis, some l => some { l with settings := lis.runtime_settings }
  | some lis, none =>
    match lis.type? with
    | none => none
    | some t =>
      if F.lisInitOk t lis.init_settings then
        some { name := nm, init_settings := lis.init_settings,
               settings := lis.runtime_settings, closed := false }
      else none
  | none, l? => l?

/-- A concrete factory environment used by the concrete scenarios below:
one resolvable dispatcher type and one resolvable listener type, whose
constructors reject any init_settings carrying the key "bad". -/
def F0 : Factories :=
  { dispTypes := ["EmonHubEmoncmsDispatcher"],
    dispInitOk := fun _ init => (lookupA "bad" init).isNone,
    lisTypes := ["EmonHubSerialListener"],
    lisInitOk := fun _ init => (lookupA "bad" init).isNone }

/-- Scenario for the buffer-loss chain: a live dispatcher d1 with
recorded init_settings [(a,1)] and retained buffer [5, 6]. -/
def hubC7a : Hub :=
  { dispatchers := [("d1", { mkDispatcher "d1" [("a", "1")] with buffer := [5, 6] })],
    listeners := [], queue := [("d1", [])], temp_buffer := [],
    nodelist := none, exit := false }

/-- First snapshot of the chain: d1's init_settings changed to a value
its constructor rejects. -/
def snapC7a : Snapshot :=
  { dispatchers := [("d1", ⟨some "EmonHubEmoncmsDispatcher", [("bad", "1")], []⟩)],
    listeners := [], nodes? := none }

/-- State after the first tick: d1 deleted, its buffer parked in
temp_buffer, its queue entry left behind. -/
def hubC7b : Hub :=
  { dispatchers := [], listeners := [], queue := [("d1", [])],
    temp_buffer := [("d1", [5, 6])], nodelist := none, exit := false }

/-- Second snapshot of the chain: d1's init_settings changed again to a
value its constructor accepts. -/
def snapC7b : Snapshot :=
  { dispatchers := [("d1", ⟨some "EmonHubEmoncmsDispatcher", [("c", "1")], []⟩)],
    listeners := [], nodes? := none }

/-- State after the second tick: d1 recreated with an empty buffer; the
parked buffer [5, 6] was discarded by the temp_buffer reset. -/
def hubC7c : Hub :=
  { dispatchers := [("d1", { mkDispatcher "d1" [("c", "1")] with buffer := [] })],
    listeners := [], queue := [("d1", [])], temp_buffer := [],
    nodelist := none, exit := false }

/-- Scenario for the init_settings-change rebuild: a live dispatcher d1
with recorded init_settings [(a,1)], a retained buffer [5, 6] and a
non-empty queue. -/
def dC1 : Dispatcher := { mkDispatcher "d1" [("a", "1")] with buffer := [5, 6] }

/-- Hub holding dC1 with a non-empty queue for it. -/
def hubC1 : Hub :=
  { dispatchers := [("d1", dC1)], listeners := [], queue := [("d1", [9])],
    temp_buffer := [], nodelist := none, exit := false }

/-- Snapshot changing d1's init_settings to [(b,2)] with a resolvable
type and accepted constructor. -/
def snapC1 : Snapshot :=
  { dispatchers := [("d1",
      ⟨some "EmonHubEmoncmsDispatcher", [("b", "2")], [("pause", "x")]⟩)],
    listeners := [], nodes? := none }

/-- Scenario for the listener init_settings change: a live listener l1
with recorded init_settings [(port,A)]. -/
def lisC2old : Listener := { mkListener "l1" [("port", "A")] with settings := [("r", "0")] }

/-- Hub holding lisC2old. -/
def hubC2 : Hub :=
  { dispatchers := [], listeners := [("l1", lisC2old)], queue := [],
    temp_buffer := [], nodelist := none, exit := false }

/-- Snapshot changing only l1's init_settings (type unchanged and
resolvable). -/
def snapC2 : Snapshot :=
  { dispatchers := [],
    listeners := [("l1", ⟨some "EmonHubSerialListener", [("port", "B")], [("r", "1")]⟩)],
    nodes? := none }

/-- The handle that replaces lisC2old after the tick. -/
def lisC2new : Listener :=
  { name := "l1", init_settings := [("port", "B")], settings := [("r", "1")],
    closed := false }

/-- Hub state after the tick on hubC2: l1 was closed, deleted and
recreated from the new descriptor. -/
def hubC2x : Hub :=
  { dispatchers := [], listeners := [("l1", lisC2new)], queue := [],
    temp_buffer := [], nodelist := none, exit := false }

/-- An entirely empty hub. -/
def hubEmpty : Hub :=
  { dispatchers := [], listeners := [], queue := [], temp_buffer := [],
    nodelist := none, exit := false }

/-- Snapshot with one dispatcher descriptor whose type string resolves
to no attribute of the dispatcher module. -/
def snapC4 : Snapshot :=
  { dispatchers := [("d1", ⟨some "NoSuchDispatcher", [], []⟩)],
    listeners := [], nodes? := none }

/-- Snapshot with one dispatcher descriptor whose type is resolvable but
whose constructor rejects the init_settings. -/
def snapC4b : Snapshot :=
  { dispatchers := [("d1", ⟨some "EmonHubEmoncmsDispatcher", [("bad", "1")], []⟩)],
    listeners := [], nodes? := none }

/-- Hub state after reconciling hubEmpty against snapC4b: no handle was
registered for d1 but its queue entry was created and left behind. -/
def hubC4bx : Hub :=
  { dispatchers := [], listeners := [], queue := [("d1", [])], temp_buffer := [],
    nodelist := none, exit := false }

/-- Hub with one live dispatcher d1 (and its queue). -/
def hubC5 : Hub :=
  { dispatchers := [("d1", mkDispatcher "d1" [])], listeners := [],
    queue := [("d1", [])], temp_buffer := [], nodelist := none, exit := false }

/-- Hub with one live listener l1. -/
def hubC5b : Hub :=
  { dispatchers := [], listeners := [("l1", mkListener "l1" [])], queue := [],
    temp_buffer := [], nodelist := none, exit := false }

/-- The empty settings snapshot: both component sections empty, no nodes
section. -/
def snapEmpty : Snapshot := { dispatchers := [], listeners := [], nodes? := none }

/-- A live dispatcher d1 whose init_settings match snapC6 and whose
queue holds one record. -/
def dC6 : Dispatcher := { mkDispatcher "d1" [("a", "1")] with buffer := [7] }

/-- Hub holding dC6 and its queue entry [7]. -/
def hubC6 : Hub :=
  { dispatchers := [("d1", dC6)], listeners := [], queue := [("d1", [7])],
    temp_buffer := [], nodelist := none, exit := false }

/-- Snapshot keeping d1's name and init_settings but with the 'type'
entry removed, which forces deletion of the handle. -/
def snapC6 : Snapshot :=
  { dispatchers := [("d1", ⟨none, [("a", "1")], []⟩)], listeners := [],
    nodes? := none }

/-- Hub state after the tick on hubC6: the handle is gone but the queue
entry survives. -/
def hubC6x : Hub :=
  { dispatchers := [], listeners := [], queue := [("d1", [7])], temp_buffer := [],
    nodelist := none, exit := false }

/-- Hub with one live listener, used to drive the shutdown scenario. -/
def hubC8 : Hub :=
  { dispatchers := [("d1", mkDispatcher "d1" [])],
    listeners := [("l1", mkListener "l1" [])], queue := [("d1", [])],
    temp_buffer := [], nodelist := none, exit := false }

/-- Hub whose shared node table currently holds a published value. -/
def hubC10 : Hub :=
  { dispatchers := [], listeners := [], queue := [], temp_buffer := [],
    nodelist := some [("n", "1")], exit := false }

theorem lookupA_eq_none {β : Type} {k : String} {l : List (String × β)} :
    lookupA k l = none ↔ k ∉ l.map Prod.fst := by
  induction l with
  | nil => simp [lookupA]
  | cons p t ih =>
    obtain ⟨k', v'⟩ := p
    by_cases hk : k' = k
    · subst hk; simp [lookupA]
    · simp [lookupA, hk, ih, Ne.symm hk]

theorem mem_of_lookupA {β : Type} {k : String} {l : List (String × β)} {v : β}
    (h : lookupA k l = some v) : (k, v) ∈ l := by
  induction l with
  | nil => simp [lookupA] at h
  | cons p t ih =>
    obtain ⟨k', v'⟩ := p
    by_cases hk : k' = k
    · subst hk
      simp [lookupA] at h
      simp [h]
    · simp [lookupA, hk] at h
      simp [ih h]

theorem lookupA_setA_self {β : Type} (k : String) (v : β) (l : List (String × β)) :
    lookupA k (setA k v l) = some v := by
  induction l with
  | nil => simp [setA, lookupA]
  | cons p t ih =>
    obtain ⟨k', v'⟩ := p
    by_cases hk : k' = k
    · subst hk; simp [setA, lookupA]
    · simp [setA, lookupA, hk, ih]

theorem lookupA_setA_ne {β : Type} {k nm : String} (h : k ≠ nm) (v : β)
    (l : List (String × β)) : lookupA nm (setA k v l) = lookupA nm l := by
  induction l with
  | nil => simp [setA, lookupA, h]
  | cons p t ih =>
    obtain ⟨k', v'⟩ := p
    by_cases hk : k' = k
    · subst hk; simp [setA, lookupA, h]
    · simp [setA, lookupA, hk, ih]

theorem lookupA_removeA_ne {β : Type} {k nm : String} (h : k ≠ nm)
    (l : List (String × β)) : lookupA nm (removeA k l) = lookupA nm l := by
  induction l with
  | nil => rfl
  | cons p t ih =>
    obtain ⟨k', v'⟩ := p
    by_cases hk : k' = k
    · subst hk; simp [removeA, lookupA, h]
    · simp [removeA, lookupA, hk, ih]

theorem lookupA_removeA_self {β : Type} {k : String} {l : List (String × β)}
    (h : keysNodup l) : lookupA k (removeA k l) = none := by
  induction l with
  | nil => rfl
  | cons p t ih =>
    obtain ⟨k', v'⟩ := p
    simp only [keysNodup, List.map_cons, List.nodup_cons] at h
    by_cases hk : k' = k
    · subst hk
      simp only [removeA, if_pos rfl]
      exact lookupA_eq_none.2 h.1
    · simp [removeA, lookupA, hk, ih h.2]

theorem lookupA_append_single_self {β : Type} {k : String} {l : List (String × β)}
    (h : lookupA k l = none) (v : β) : lookupA k (l ++ [(k, v)]) = some v := by
  induction l with
  | nil => simp [lookupA]
  | cons p t ih =>
    obtain ⟨k', v'⟩ := p
    by_cases hk : k' = k
    · subst hk; simp [lookupA] at h
    · simp only [lookupA, hk, if_false] at h ⊢
      simp [List.cons_append, lookupA, hk] at *
      exact ih h

theorem lookupA_append_single_ne {β : Type} {k nm : String} (hne : k ≠ nm)
    (l : List (String × β)) (v : β) : lookupA nm (l ++ [(k, v)]) = lookupA nm l := by
  induction l with
  | nil => simp [lookupA, hne]
  | cons p t ih =>
    obtain ⟨k', v'⟩ := p
    by_cases hk : k' = nm
    · subst hk; simp [lookupA]
    · simp [lookupA, hk, ih]

theorem keys_setA {β : Type} (k : String) (v : β) (l : List (String × β)) :
    (setA k v l).map Prod.fst =
      if k ∈ l.map Prod.fst then l.map Prod.fst else l.map Prod.fst ++ [k] := by
  induction l with
  | nil => simp [setA]
  | cons p t ih =>
    obtain ⟨k', v'⟩ := p
    by_cases hk : k' = k
    · subst hk; simp [setA]
    · simp only [setA, hk, if_false, List.map_cons, ih]
      by_cases hm : k ∈ t.map Prod.fst
      · simp [hm, Ne.symm hk]
      · simp [hm, Ne.symm hk]

theorem keysNodup_setA {β : Type} {l : List (String × β)} (h : keysNodup l)
    (k : String) (v : β) : keysNodup (setA k v l) := by
  unfold keysNodup at *
  rw [keys_setA]
  by_cases hm : k ∈ l.map Prod.fst
  · simpa [hm] using h
  · simp only [hm, if_false]
    exact List.Nodup.append h (List.nodup_singleton k) (by simpa using hm)

theorem keysNodup_append_single {β : Type} {l : List (String × β)} (h : keysNodup l)
    {k : String} (hk : lookupA k l = none) (v : β) : keysNodup (l ++ [(k, v)]) := by
  unfold keysNodup at *
  rw [List.map_append]
  exact List.Nodup.append h (List.nodup_singleton k) (by simpa using lookupA_eq_none.1 hk)

theorem mem_keys_removeA {β : Type} {k k' : String} {l : List (String × β)}
    (h : k' ∈ (removeA k l).map Prod.fst) : k' ∈ l.map Prod.fst := by
  induction l with
  | nil => simp [removeA] at h
  | cons p t ih =>
    obtain ⟨k2, v2⟩ := p
    by_cases hk2 : k2 = k
    · subst hk2
      simp only [removeA, if_true, eq_self_iff_true, if_pos] at h
      simp [h]
    · simp only [removeA, hk2, if_false, List.map_cons, List.mem_cons] at h
      rcases h with h | h
      · simp [h]
      · simp [ih h]

theorem keysNodup_removeA {β : Type} {l : List (String × β)} (h : keysNodup l)
    (k : String) : keysNodup (removeA k l) := by
  induction l with
  | nil => exact h
  | cons p t ih =>
    obtain ⟨k', v'⟩ := p
    simp only [keysNodup, List.map_cons, List.nodup_cons] at h
    by_cases hk : k' = k
    · subst hk
      simpa [removeA, keysNodup] using h.2
    · simp only [removeA, hk, if_false, keysNodup, List.map_cons, List.nodup_cons]
      exact ⟨fun hm => h.1 (mem_keys_removeA hm), ih h.2⟩

theorem dispDeletePass_char (snap : List (String × Descriptor))
    (live : List (String × Dispatcher)) (temp : List (String × List Rec))
    (hnd : keysNodup live) (htemp : keysNodup temp)
    (hpres : ∀ p ∈ live, (lookupA p.1 snap).isSome) :
    ∃ live' temp', dispDeletePass snap live temp = .ok (live', temp') ∧
      keysNodup live' ∧ keysNodup temp' ∧
      (∀ nm, lookupA nm live' = dDelSpec (lookupA nm live) (lookupA nm snap)) ∧
      (∀ nm, lookupA nm temp' =
        dDelTempSpec (lookupA nm live) (lookupA nm snap) (lookupA nm temp)) := by
  induction live generalizing temp with
  | nil =>
    refine ⟨[], temp, rfl, hnd, htemp, fun nm => ?_, fun nm => ?_⟩
    · cases lookupA nm snap <;> simp [lookupA, dDelSpec]
    · cases lookupA nm snap <;> simp [lookupA, dDelTempSpec]
  | cons p rest ih =>
    obtain ⟨k, d⟩ := p
    obtain ⟨dis, hdis⟩ := Option.isSome_iff_exists.1 (hpres (k, d) (by simp))
    simp only [keysNodup, List.map_cons, List.nodup_cons] at hnd
    have hkrest : lookupA k rest = none := lookupA_eq_none.2 hnd.1
    have hndrest : keysNodup rest := hnd.2
    have hpresrest : ∀ p ∈ rest, (lookupA p.1 snap).isSome :=
      fun p hp => hpres p (by simp [hp])
    by_cases hinit : d.init_settings = dis.init_settings
    · cases htype : dis.type? with
      | some t =>
        obtain ⟨live', temp', heq, hn1, hn2, hc1, hc2⟩ := ih temp hndrest htemp hpresrest
        refine ⟨(k, d) :: live', temp', ?_, ?_, hn2, fun nm => ?_, fun nm => ?_⟩
        · simp only [dispDeletePass, hdis]
          rw [if_neg (by simp [hinit]), if_pos (by simp [htype]), heq]
          rfl
        · simp only [keysNodup, List.map_cons, List.nodup_cons]
          refine ⟨?_, hn1⟩
          rw [← lookupA_eq_none, hc1 k, hkrest]
          cases lookupA k snap <;> rfl
        · by_cases hnm : k = nm
          · subst hnm
            simp [lookupA, hdis, dDelSpec, hinit, htype]
          · simp only [lookupA, hnm, if_false]
            exact hc1 nm
        · by_cases hnm : k = nm
          · subst hnm
            rw [hc2 k, hkrest, hdis]
            simp [lookupA, dDelTempSpec, hinit]
          · simp only [lookupA, hnm, if_false]
            exact hc2 nm
      | none =>
        obtain ⟨live', temp', heq, hn1, hn2, hc1, hc2⟩ := ih temp hndrest htemp hpresrest
        refine ⟨live', temp', ?_, hn1, hn2, fun nm => ?_, fun nm => ?_⟩
        · simp only [dispDeletePass, hdis]
          rw [if_neg (by simp [hinit]), if_neg (by simp [htype]), heq]
        · by_cases hnm : k = nm
          · subst hnm
            rw [hc1 k, hkrest, hdis]
            simp [lookupA, dDelSpec, htype]
          · simp only [lookupA, hnm, if_false]
            exact hc1 nm
        · by_cases hnm : k = nm
          · subst hnm
            rw [hc2 k, hkrest, hdis]
            simp [lookupA, dDelTempSpec, hinit]
          · simp only [lookupA, hnm, if_false]
            exact hc2 nm
    · by_cases hbuf : d.buffer = []
      · obtain ⟨live', temp', heq, hn1, hn2, hc1, hc2⟩ := ih temp hndrest htemp hpresrest
        refine ⟨live', temp', ?_, hn1, hn2, fun nm => ?_, fun nm => ?_⟩
        · simp only [dispDeletePass, hdis]
          rw [if_pos (by simp [hinit]), if_neg (by simp [hbuf])]
          exact heq
        · by_cases hnm : k = nm
          · subst hnm
            rw [hc1 k, hkrest, hdis]
            simp [lookupA, dDelSpec, hinit]
          · simp only [lookupA, hnm, if_false]
            exact hc1 nm
        · by_cases hnm : k = nm
          · subst hnm
            rw [hc2 k, hkrest, hdis]
            simp [lookupA, dDelTempSpec, hinit, hbuf]
          · simp only [lookupA, hnm, if_false]
            exact hc2 nm
      · obtain ⟨live', temp', heq, hn1, hn2, hc1, hc2⟩ :=
          ih (setA k d.buffer temp) hndrest (keysNodup_setA htemp k d.buffer) hpresrest
        refine ⟨live', temp', ?_, hn1, hn2, fun nm => ?_, fun nm => ?_⟩
        · simp only [dispDeletePass, hdis]
          rw [if_pos (by simp [hinit]), if_pos (by simp [hbuf])]
          exact heq
        · by_cases hnm : k = nm
          · subst hnm
            rw [hc1 k, hkrest, hdis]
            simp [lookupA, dDelSpec, hinit]
          · simp only [lookupA, hnm, if_false]
            exact hc1 nm
        · by_cases hnm : k = nm
          · subst hnm
            rw [hc2 k, hkrest, hdis, lookupA_setA_self]
            simp [lookupA, dDelTempSpec, hinit, hbuf]
          · rw [hc2 nm, lookupA_setA_ne hnm]
            simp only [lookupA, hnm, if_false]

theorem dispCreatePass_char (F : Factories) (snap : List (String × Descriptor))
    (live : List (String × Dispatcher)) (q : List (String × List Rec))
    (temp : List (String × List Rec))
    (hndS : keysNodup snap) (hndL : keysNodup live) (htemp : keysNodup temp)
    (hres : ∀ p ∈ snap, ∀ t, p.2.type? = some t → t ∈ F.dispTypes) :
    ∃ live' q' temp', dispCreatePass F snap live q temp = .ok (live', q', temp') ∧
      keysNodup live' ∧
      (∀ nm, lookupA nm live' =
        dCreSpec F nm (lookupA nm snap) (lookupA nm live) (lookupA nm temp)) ∧
      (∀ nm, lookupA nm q' =
        dCreQSpec (lookupA nm snap) (lookupA nm live) (lookupA nm q)) ∧
      (∀ nm, lookupA nm temp' =
        dCreTempSpec F (lookupA nm snap) (lookupA nm live) (lookupA nm temp)) := by
  induction snap generalizing live q temp with
  | nil =>
    refine ⟨live, q, temp, rfl, hndL, fun nm => ?_, fun nm => ?_, fun nm => ?_⟩
    · simp [lookupA, dCreSpec]
    · simp [lookupA, dCreQSpec]
    · simp [lookupA, dCreTempSpec]
  | cons p rest ih =>
    obtain ⟨k, dis⟩ := p
    simp only [keysNodup, List.map_cons, List.nodup_cons] at hndS
    have hkrest : lookupA k rest = none := lookupA_eq_none.2 hndS.1
    have hndSrest : keysNodup rest := hndS.2
    have hresrest : ∀ p ∈ rest, ∀ t, p.2.type? = some t → t ∈ F.dispTypes :=
      fun p hp => hres p (by simp [hp])
    cases hl : lookupA k live with
    | some d =>
      obtain ⟨live', q', temp', heq, hn, hc1, hc2, hc3⟩ :=
        ih (setA k { d with settings := dis.runtime_settings } live) q temp
          hndSrest (keysNodup_setA hndL k _) htemp hresrest
      refine ⟨live', q', temp', ?_, hn, fun nm => ?_, fun nm => ?_, fun nm => ?_⟩
      · simp only [dispCreatePass, hl]
        exact heq
      · by_cases hnm : k = nm
        · subst hnm
          rw [hc1 k, hkrest, lookupA_setA_self]
          simp [lookupA, hl, dCreSpec]
        · rw [hc1 nm, lookupA_setA_ne hnm]
          simp only [lookupA, hnm, if_false]
      · by_cases hnm : k = nm
        · subst hnm
          rw [hc2 k, hkrest, hl]
          simp [lookupA, dCreQSpec]
        · simp only [lookupA, hnm, if_false]
          rw [hc2 nm, lookupA_setA_ne hnm]
      · by_cases hnm : k = nm
        · subst hnm
          rw [hc3 k, hkrest, hl]
          simp [lookupA, dCreTempSpec]
        · simp only [lookupA, hnm, if_false]
          rw [hc3 nm, lookupA_setA_ne hnm]
    | none =>
      cases ht : dis.type? with
      | none =>
        obtain ⟨live', q', temp', heq, hn, hc1, hc2, hc3⟩ :=
          ih live q temp hndSrest hndL htemp hresrest
        refine ⟨live', q', temp', ?_, hn, fun nm => ?_, fun nm => ?_, fun nm => ?_⟩
        · simp only [dispCreatePass, hl, ht]
          exact heq
        · by_cases hnm : k = nm
          · subst hnm
            rw [hc1 k, hkrest, hl]
            simp [lookupA, dCreSpec, ht]
          · simp only [lookupA, hnm, if_false]
            exact hc1 nm
        · by_cases hnm : k = nm
          · subst hnm
            rw [hc2 k, hkrest, hl]
            simp [lookupA, dCreQSpec, ht]
          · simp only [lookupA, hnm, if_false]
            exact hc2 nm
        · by_cases hnm : k = nm
          · subst hnm
            rw [hc3 k, hkrest, hl]
            simp [lookupA, dCreTempSpec, ht]
          · simp only [lookupA, hnm, if_false]
            exact hc3 nm
      | some t =>
        have htmem : t ∈ F.dispTypes := hres (k, dis) (by simp) t ht
        cases hiok : F.dispInitOk t dis.init_settings with
        | true =>
          obtain ⟨live', q', temp', heq, hn, hc1, hc2, hc3⟩ :=
            ih (live ++ [(k, { mkDispatcher k dis.init_settings with
                                 buffer := (lookupA k temp).getD [],
                                 settings := dis.runtime_settings })])
              (setA k ([] : List Rec) q) (removeA k temp)
              hndSrest (keysNodup_append_single hndL hl _)
              (keysNodup_removeA htemp k) hresrest
          refine ⟨live', q', temp', ?_, hn, fun nm => ?_, fun nm => ?_, fun nm => ?_⟩
          · simp only [dispCreatePass, hl, ht]
            rw [if_pos htmem, if_pos hiok]
            exact heq
          · by_cases hnm : k = nm
            · subst hnm
              rw [hc1 k, hkrest, lookupA_append_single_self hl]
              simp [lookupA, dCreSpec, hl, ht, hiok, mkDispatcher]
            · rw [hc1 nm, lookupA_append_single_ne hnm, lookupA_removeA_ne hnm]
              simp only [lookupA, hnm, if_false]
          · by_cases hnm : k = nm
            · subst hnm
              rw [hc2 k, hkrest, hl, lookupA_setA_self]
              simp [lookupA, dCreQSpec, ht]
            · simp only [lookupA, hnm, if_false]
              rw [hc2 nm, lookupA_append_single_ne hnm, lookupA_setA_ne hnm]
          · by_cases hnm : k = nm
            · subst hnm
              rw [hc3 k, hkrest, hl, lookupA_removeA_self htemp]
              simp [lookupA, dCreTempSpec, ht, hiok]
            · simp only [lookupA, hnm, if_false]
              rw [hc3 nm, lookupA_append_single_ne hnm, lookupA_removeA_ne hnm]
        | false =>
          obtain ⟨live', q', temp', heq, hn, hc1, hc2, hc3⟩ :=
            ih live (setA k ([] : List Rec) q) temp
              hndSrest hndL htemp hresrest
          refine ⟨live', q', temp', ?_, hn, fun nm => ?_, fun nm => ?_, fun nm => ?_⟩
          · simp only [dispCreatePass, hl, ht]
            rw [if_pos htmem, if_neg (by simp [hiok])]
            exact heq
          · by_cases hnm : k = nm
            · subst hnm
              rw [hc1 k, hkrest, hl]
              simp [lookupA, dCreSpec, ht, hiok]
            · simp only [lookupA, hnm, if_false]
              exact hc1 nm
          · by_cases hnm : k = nm
            · subst hnm
              rw [hc2 k, hkrest, hl, lookupA_setA_self]
              simp [lookupA, dCreQSpec, ht]
            · simp only [lookupA, hnm, if_false]
              rw [hc2 nm, lookupA_setA_ne hnm]
          · by_cases hnm : k = nm
            · subst hnm
              rw [hc3 k, hkrest, hl]
              simp [lookupA, dCreTempSpec, ht, hiok]
            · simp only [lookupA, hnm, if_false]
              exact hc3 nm

theorem lisDeletePass_char (snap : List (String × Descriptor))
    (live : List (String × Listener)) (closed : List String)
    (hnd : keysNodup live)
    (hpres : ∀ p ∈ live, (lookupA p.1 snap).isSome) :
    ∃ live' closed', lisDeletePass snap live closed = .ok (live', closed') ∧
      keysNodup live' ∧
      (∀ nm, lookupA nm live' = lDelSpec (lookupA nm live) (lookupA nm snap)) ∧
      (∀ x ∈ closed, x ∈ closed') ∧
      (∀ nm l2 lis2, lookupA nm live = some l2 → lookupA nm snap = some lis2 →
        ¬(l2.init_settings = lis2.init_settings ∧ lis2.type?.isSome) → nm ∈ closed') := by
  induction live generalizing closed with
  | nil =>
    refine ⟨[], closed, rfl, hnd, fun nm => ?_, fun x hx => hx, ?_⟩
    · cases lookupA nm snap <;> simp [lookupA, lDelSpec]
    · intro nm l2 lis2 hlk
      simp [lookupA] at hlk
  | cons p rest ih =>
    obtain ⟨k, l⟩ := p
    obtain ⟨lis0, hdis⟩ := Option.isSome_iff_exists.1 (hpres (k, l) (by simp))
    simp only [keysNodup, List.map_cons, List.nodup_cons] at hnd
    have hkrest : lookupA k rest = none := lookupA_eq_none.2 hnd.1
    have hndrest : keysNodup rest := hnd.2
    have hpresrest : ∀ p ∈ rest, (lookupA p.1 snap).isSome :=
      fun p hp => hpres p (by simp [hp])
    by_cases hinit : l.init_settings = lis0.init_settings
    · cases htype : lis0.type? with
      | some t =>
        obtain ⟨live', closed', heq, hn1, hc1, hc4, hc5⟩ := ih closed hndrest hpresrest
        refine ⟨(k, l) :: live', closed', ?_, ?_, fun nm => ?_, hc4, ?_⟩
        · simp only [lisDeletePass, hdis]
          rw [if_neg (by simp [hinit]), if_pos (by simp [htype]), heq]
          rfl
        · simp only [keysNodup, List.map_cons, List.nodup_cons]
          refine ⟨?_, hn1⟩
          rw [← lookupA_eq_none, hc1 k, hkrest]
          cases lookupA k snap <;> rfl
        · by_cases hnm : k = nm
          · subst hnm
            simp [lookupA, hdis, lDelSpec, hinit, htype]
          · simp only [lookupA, hnm, if_false]
            exact hc1 nm
        · intro nm l2 lis2 hlk hsk hcond
          by_cases hnm : k = nm
          · subst hnm
            simp only [lookupA, if_true, eq_self_iff_true, if_pos] at hlk
            obtain rfl := Option.some.inj hlk
            rw [hdis] at hsk
            obtain rfl := Option.some.inj hsk
            exact absurd ⟨hinit, by simp [htype]⟩ hcond
          · refine hc5 nm l2 lis2 ?_ hsk hcond
            simpa [lookupA, hnm] using hlk
      | none =>
        obtain ⟨live', closed', heq, hn1, hc1, hc4, hc5⟩ :=
          ih (closed ++ [k]) hndrest hpresrest
        refine ⟨live', closed', ?_, hn1, fun nm => ?_,
          fun x hx => hc4 x (by simp [hx]), ?_⟩
        · simp only [lisDeletePass, hdis]
          rw [if_neg (by simp [hinit]), if_neg (by simp [htype])]
          exact heq
        · by_cases hnm : k = nm
          · subst hnm
            rw [hc1 k, hkrest, hdis]
            simp [lookupA, lDelSpec, htype]
          · simp only [lookupA, hnm, if_false]
            exact hc1 nm
        · intro nm l2 lis2 hlk hsk hcond
          by_cases hnm : k = nm
          · subst hnm
            exact hc4 k (by simp)
          · refine hc5 nm l2 lis2 ?_ hsk hcond
            simpa [lookupA, hnm] using hlk
    · obtain ⟨live', closed', heq, hn1, hc1, hc4, hc5⟩ :=
        ih (closed ++ [k]) hndrest hpresrest
      refine ⟨live', closed', ?_, hn1, fun nm => ?_,
        fun x hx => hc4 x (by simp [hx]), ?_⟩
      · simp only [lisDeletePass, hdis]
        rw [if_pos (by simp [hinit])]
        exact heq
      · by_cases hnm : k = nm
        · subst hnm
          rw [hc1 k, hkrest, hdis]
          simp [lookupA, lDelSpec, hinit]
        · simp only [lookupA, hnm, if_false]
          exact hc1 nm
      · intro nm l2 lis2 hlk hsk hcond
        by_cases hnm : k = nm
        · subst hnm
          exact hc4 k (by simp)
        · refine hc5 nm l2 lis2 ?_ hsk hcond
          simpa [lookupA, hnm] using hlk

theorem lisCreatePass_char (F : Factories) (snap : List (String × Descriptor))
    (live : List (String × Listener))
    (hndS : keysNodup snap) (hndL : keysNodup live)
    (hres : ∀ p ∈ snap, ∀ t, p.2.type? = some t → t ∈ F.lisTypes) :
    ∃ live', lisCreatePass F snap live = .ok live' ∧
      keysNodup live' ∧
      (∀ nm, lookupA nm live' = lCreSpec F nm (lookupA nm snap) (lookupA nm live)) := by
  induction snap generalizing live with
  | nil =>
    refine ⟨live, rfl, hndL, fun nm => ?_⟩
    simp [lookupA, lCreSpec]
  | cons p rest ih =>
    obtain ⟨k, lis⟩ := p
    simp only [keysNodup, List.map_cons, List.nodup_cons] at hndS
    have hkrest : lookupA k rest = none := lookupA_eq_none.2 hndS.1
    have hndSrest : keysNodup rest := hndS.2
    have hresrest : ∀ p ∈ rest, ∀ t, p.2.type? = some t → t ∈ F.lisTypes :=
      fun p hp => hres p (by simp [hp])
    cases hl : lookupA k live with
    | some l =>
      obtain ⟨live', heq, hn, hc1⟩ :=
        ih (setA k { l with settings := lis.runtime_settings } live)
          hndSrest (keysNodup_setA hndL k _) hresrest
      refine ⟨live', ?_, hn, fun nm => ?_⟩
      · simp only [lisCreatePass, hl]
        exact heq
      · by_cases hnm : k = nm
        · subst hnm
          rw [hc1 k, hkrest, lookupA_setA_self]
          simp [lookupA, hl, lCreSpec]
        · rw [hc1 nm, lookupA_setA_ne hnm]
          simp only [lookupA, hnm, if_false]
    | none =>
      cases ht : lis.type? with
      | none =>
        obtain ⟨live', heq, hn, hc1⟩ := ih live hndSrest hndL hresrest
        refine ⟨live', ?_, hn, fun nm => ?_⟩
        · simp only [lisCreatePass, hl, ht]
          exact heq
        · by_cases hnm : k = nm
          · subst hnm
            rw [hc1 k, hkrest, hl]
            simp [lookupA, lCreSpec, ht]
          · simp only [lookupA, hnm, if_false]
            exact hc1 nm
      | some t =>
        have htmem : t ∈ F.lisTypes := hres (k, lis) (by simp) t ht
        cases hiok : F.lisInitOk t lis.init_settings with
        | true =>
          obtain ⟨live', heq, hn, hc1⟩ :=
            ih (live ++ [(k, { mkListener k lis.init_settings with
                                 settings := lis.runtime_settings })])
              hndSrest (keysNodup_append_single hndL hl _) hresrest
          refine ⟨live', ?_, hn, fun nm => ?_⟩
          · simp only [lisCreatePass, hl, ht]
            rw [if_pos htmem, if_pos hiok]
            exact heq
          · by_cases hnm : k = nm
            · subst hnm
              rw [hc1 k, hkrest, lookupA_append_single_self hl]
              simp [lookupA, lCreSpec, hl, ht, hiok, mkListener]
            · rw [hc1 nm, lookupA_append_single_ne hnm]
              simp only [lookupA, hnm, if_false]
        | false =>
          obtain ⟨live', heq, hn, hc1⟩ := ih live hndSrest hndL hresrest
          refine ⟨live', ?_, hn, fun nm => ?_⟩
          · simp only [lisCreatePass, hl, ht]
            rw [if_pos htmem, if_neg (by simp [hiok])]
            exact heq
          · by_cases hnm : k = nm
            · subst hnm
              rw [hc1 k, hkrest, hl]
              simp [lookupA, lCreSpec, ht, hiok]
            · simp only [lookupA, hnm, if_false]
              exact hc1 nm

theorem updateSettings_char (F : Factories) (s : Snapshot) (h : Hub)
    (hndD : keysNodup h.dispatchers) (hndSD : keysNodup s.dispatchers)
    (hndL : keysNodup h.listeners) (hndSL : keysNodup s.listeners)
    (hpresD : ∀ p ∈ h.dispatchers, (lookupA p.1 s.dispatchers).isSome)
    (hpresL : ∀ p ∈ h.listeners, (lookupA p.1 s.listeners).isSome)
    (hresD : ∀ p ∈ s.dispatchers, ∀ t, p.2.type? = some t → t ∈ F.dispTypes)
    (hresL : ∀ p ∈ s.listeners, ∀ t, p.2.type? = some t → t ∈ F.lisTypes) :
    ∃ h' cl, updateSettings F s h = .ok (h', cl) ∧
      (∀ nm, lookupA nm h'.dispatchers =
        dCreSpec F nm (lookupA nm s.dispatchers)
          (dDelSpec (lookupA nm h.dispatchers) (lookupA nm s.dispatchers))
          (dDelTempSpec (lookupA nm h.dispatchers) (lookupA nm s.dispatchers) none)) ∧
      (∀ nm, lookupA nm h'.queue =
        dCreQSpec (lookupA nm s.dispatchers)
          (dDelSpec (lookupA nm h.dispatchers) (lookupA nm s.dispatchers))
          (lookupA nm h.queue)) ∧
      (∀ nm, lookupA nm h'.temp_buffer =
        dCreTempSpec F (lookupA nm s.dispatchers)
          (dDelSpec (lookupA nm h.dispatchers) (lookupA nm s.dispatchers))
          (dDelTempSpec (lookupA nm h.dispatchers) (lookupA nm s.dispatchers) none)) ∧
      (∀ nm, lookupA nm h'.listeners =
        lCreSpec F nm (lookupA nm s.listeners)
          (lDelSpec (lookupA nm h.listeners) (lookupA nm s.listeners))) ∧
      (∀ nm l2 lis2, lookupA nm h.listeners = some l2 →
        lookupA nm s.listeners = some lis2 →
        ¬(l2.init_settings = lis2.init_settings ∧ lis2.type?.isSome) → nm ∈ cl) ∧
      h'.nodelist = (match s.nodes? with | some n => some n | none => h.nodelist) ∧
      h'.exit = h.exit ∧ keysNodup h'.dispatchers ∧ keysNodup h'.listeners := by
  obtain ⟨live1, temp1, heq1, hn1, hn1t, hd1, ht1⟩ :=
    dispDeletePass_char s.dispatchers h.dispatchers [] hndD (by simp [keysNodup]) hpresD
  obtain ⟨live2, q2, temp2, heq2, hn2, hd2, hq2, ht2⟩ :=
    dispCreatePass_char F s.dispatchers live1 h.queue temp1 hndSD hn1 hn1t hresD
  obtain ⟨lis1, cl, heq3, hn3, hl1, hcl0, hcl⟩ :=
    lisDeletePass_char s.listeners h.listeners [] hndL hpresL
  obtain ⟨lis2, heq4, hn4, hl2⟩ := lisCreatePass_char F s.listeners lis1 hndSL hn3 hresL
  refine ⟨{ dispatchers := live2, listeners := lis2, queue := q2,
            temp_buffer := temp2,
            nodelist := match s.nodes? with
                        | some n => some n
                        | none => h.nodelist,
            exit := h.exit }, cl, ?_, fun nm => ?_, fun nm => ?_, fun nm => ?_,
          fun nm => ?_, hcl, rfl, rfl, hn2, hn4⟩
  · simp only [updateSettings, heq1, heq2, heq3, heq4]
  · rw [hd2 nm, hd1 nm, ht1 nm]
    rfl
  · rw [hq2 nm, hd1 nm]
  · rw [ht2 nm, hd1 nm, ht1 nm]
    rfl
  · rw [hl2 nm, hl1 nm]

theorem lookupA_putQ_self {nm : String} {q : List (String × List Rec)} {xs : List Rec}
    (h : lookupA nm q = some xs) (r : Rec) :
    lookupA nm (putQ nm r q) = some (xs ++ [r]) := by
  induction q with
  | nil => simp [lookupA] at h
  | cons p t ih =>
    obtain ⟨k, ys⟩ := p
    by_cases hk : k = nm
    · subst hk
      simp only [lookupA, if_true, eq_self_iff_true, if_pos] at h
      obtain rfl := Option.some.inj h
      simp [putQ, lookupA]
    · simp only [lookupA, hk, if_false] at h
      simp [putQ, lookupA, hk, ih h]

theorem lookupA_putQ_ne {k nm : String} (h : k ≠ nm) (r : Rec)
    (q : List (String × List Rec)) : lookupA nm (putQ k r q) = lookupA nm q := by
  induction q with
  | nil => rfl
  | cons p t ih =>
    obtain ⟨k2, ys⟩ := p
    by_cases hk2 : k2 = k
    · subst hk2
      simp [putQ, lookupA, h]
    · simp [putQ, lookupA, hk2, ih]

theorem fanoutOne_lookup_not_key {nm : String} (disp : List (String × Dispatcher))
    (r : Rec) (q : List (String × List Rec)) (h : nm ∉ disp.map Prod.fst) :
    lookupA nm (fanoutOne disp r q) = lookupA nm q := by
  induction disp generalizing q with
  | nil => rfl
  | cons p rest ih =>
    obtain ⟨k, d⟩ := p
    simp only [List.map_cons, List.mem_cons, not_or] at h
    cases hp : pausedFor d with
    | true => simp only [fanoutOne, hp, if_true]; exact ih q h.2
    | false =>
      simp only [fanoutOne, hp, Bool.false_eq_true, if_false]
      rw [ih (putQ k r q) h.2, lookupA_putQ_ne (fun hk => h.1 hk.symm)]

theorem fanoutOne_lookup_mem {disp : List (String × Dispatcher)} (hnd : keysNodup disp)
    {nm : String} {d : Dispatcher} (hd : lookupA nm disp = some d)
    {q : List (String × List Rec)} {xs : List Rec} (hq : lookupA nm q = some xs)
    (r : Rec) :
    lookupA nm (fanoutOne disp r q) =
      some (if pausedFor d then xs else xs ++ [r]) := by
  induction disp generalizing q xs with
  | nil => simp [lookupA] at hd
  | cons p rest ih =>
    obtain ⟨k, d2⟩ := p
    simp only [keysNodup, List.map_cons, List.nodup_cons] at hnd
    by_cases hk : k = nm
    · subst hk
      simp only [lookupA, if_true, eq_self_iff_true, if_pos] at hd
      rw [← Option.some.inj hd]
      cases hp : pausedFor d2 with
      | true =>
        simp only [fanoutOne, hp, if_true]
        rw [fanoutOne_lookup_not_key rest r q hnd.1, hq]
      | false =>
        simp only [fanoutOne, hp, Bool.false_eq_true, if_false]
        rw [fanoutOne_lookup_not_key rest r _ hnd.1, lookupA_putQ_self hq]
    · simp only [lookupA, hk, if_false] at hd
      cases hp : pausedFor d2 with
      | true => simp only [fanoutOne, hp, if_true]; exact ih hnd.2 hd hq
      | false =>
        simp only [fanoutOne, hp, Bool.false_eq_true, if_false]
        exact ih hnd.2 hd (by rw [lookupA_putQ_ne hk, hq])

theorem fanoutAll_lookup {disp : List (String × Dispatcher)} (hnd : keysNodup disp)
    {nm : String} {d : Dispatcher} (hd : lookupA nm disp = some d)
    {q : List (String × List Rec)} {xs : List Rec} (hq : lookupA nm q = some xs)
    (rs : List Rec) :
    lookupA nm (fanoutAll disp rs q) =
      some (if pausedFor d then xs else xs ++ rs) := by
  induction rs generalizing q xs with
  | nil =>
    cases hp : pausedFor d <;> simp [fanoutAll, hq, hp]
  | cons r rs ih =>
    have hstep := fanoutOne_lookup_mem hnd hd hq r
    have := ih (q := fanoutOne disp r q) hstep
    rw [show fanoutAll disp (r :: rs) q = fanoutAll disp rs (fanoutOne disp r q) from rfl,
        this]
    cases hp : pausedFor d <;> simp [hp]

theorem iterOnce_no_settings {F : Factories} {h : Hub} {inp : IterInput}
    (hs : inp.settings? = none) :
    iterOnce F h inp =
      .ok ({ h with
               queue := fanoutAll h.dispatchers (producedRecs h.listeners inp.reads) h.queue,
               exit := h.exit || inp.sigint },
           h.listeners.map Prod.fst) := by
  simp [iterOnce, hs]

theorem runLoop_exit {F : Factories} {ss : List IterInput} {h : Hub}
    (hx : h.exit = true) : runLoop F ss h = .ok (h, []) := by
  cases ss <;> simp [runLoop, hx]

theorem runLoop_sigint (F : Factories) (pre : List IterInput) (inp : IterInput)
    (post : List IterInput) (h : Hub)
    (hset : ∀ x ∈ pre, x.settings? = none) (hsetI : inp.settings? = none)
    (hpre : ∀ x ∈ pre, x.sigint = false) (hsig : inp.sigint = true)
    (hex : h.exit = false) :
    ∃ h' polls, runLoop F (pre ++ inp :: post) h = .ok (h', polls) ∧
      h'.listeners = h.listeners ∧ h'.dispatchers = h.dispatchers ∧
      h'.exit = true ∧
      polls.length = (pre.length + 1) * h.listeners.length := by
  induction pre generalizing h with
  | nil =>
    refine ⟨{ h with
                queue := fanoutAll h.dispatchers (producedRecs h.listeners inp.reads) h.queue,
                exit := true }, h.listeners.map Prod.fst, ?_, rfl, rfl, rfl, by simp⟩
    simp only [List.nil_append, runLoop, hex, Bool.false_eq_true, if_false]
    rw [iterOnce_no_settings hsetI]
    simp only [hex, hsig, Bool.false_or]
    rw [runLoop_exit rfl]
    simp
  | cons x pre' ih =>
    have hx1 : x.settings? = none := hset x (by simp)
    have hx2 : x.sigint = false := hpre x (by simp)
    obtain ⟨h', polls, heq, hl, hd, hx, hlen⟩ :=
      ih (h := { h with
                   queue := fanoutAll h.dispatchers (producedRecs h.listeners x.reads) h.queue,
                   exit := h.exit || x.sigint })
        (fun y hy => hset y (by simp [hy])) (fun y hy => hpre y (by simp [hy]))
        (by simp [hex, hx2])
    have hlen2 : polls.length = (pre'.length + 1) * h.listeners.length := hlen
    refine ⟨h', h.listeners.map Prod.fst ++ polls, ?_, by simpa using hl,
      by simpa using hd, hx, ?_⟩
    · simp only [List.cons_append, runLoop, hex, Bool.false_eq_true, if_false,
        iterOnce_no_settings hx1]
      rw [hex] at heq
      simp only [List.append_eq]
      rw [heq]
    · simp only [List.length_append, List.length_map, List.length_cons, hlen2]
      ring

theorem closeHub_listeners_closed (h : Hub) :
    ∀ p ∈ (closeHub h).listeners, p.2.closed = true := by
  intro p hp
  simp only [closeHub, List.mem_map] at hp
  obtain ⟨a, _, rfl⟩ := hp
  rfl

theorem closeHub_dispatchers_stopped (h : Hub) :
    ∀ p ∈ (closeHub h).dispatchers, p.2.stop = true := by
  intro p hp
  simp only [closeHub, List.mem_map] at hp
  obtain ⟨a, _, rfl⟩ := hp
  rfl

/-- C1: for every dispatcher whose recorded init_settings differ from the
snapshot's init_settings for its name and whose retained buffer is
non-empty, one reconcile tick destroys the old handle and creates a new
handle for the same name: the new handle records the snapshot's
init_settings, its retained buffer equals the pre-rebuild buffer, and its
queue is a newly created empty queue.  Stated under the assumptions that
make the tick complete: Python-dict key uniqueness, every live name still
listed in the snapshot, every typed descriptor's type resolvable, and the
rebuilt dispatcher's constructor accepting the new init_settings. -/
theorem C1_rebuild_preserves_buffer (F : Factories) (s : Snapshot) (h : Hub)
    (nm : String) (d : Dispatcher) (dis : Descriptor) (t : String)
    (hndD : keysNodup h.dispatchers) (hndSD : keysNodup s.dispatchers)
    (hndL : keysNodup h.listeners) (hndSL : keysNodup s.listeners)
    (hpresD : ∀ p ∈ h.dispatchers, (lookupA p.1 s.dispatchers).isSome)
    (hpresL : ∀ p ∈ h.listeners, (lookupA p.1 s.listeners).isSome)
    (hresD : ∀ p ∈ s.dispatchers, ∀ u, p.2.type? = some u → u ∈ F.dispTypes)
    (hresL : ∀ p ∈ s.listeners, ∀ u, p.2.type? = some u → u ∈ F.lisTypes)
    (hd : lookupA nm h.dispatchers = some d)
    (hdis : lookupA nm s.dispatchers = some dis)
    (hinit : d.init_settings ≠ dis.init_settings)
    (hbuf : d.buffer ≠ [])
    (ht : dis.type? = some t)
    (hiok : F.dispInitOk t dis.init_settings = true) :
    ∃ h' cl, updateSettings F s h = .ok (h', cl) ∧
      lookupA nm h'.dispatchers =
        some { name := nm, init_settings := dis.init_settings,
               settings := dis.runtime_settings, buffer := d.buffer,
               stop := false } ∧
      lookupA nm h'.queue = some [] := by
  obtain ⟨h', cl, heq, hc1, hc2, _, _, _, _, _, _, _⟩ :=
    updateSettings_char F s h hndD hndSD hndL hndSL hpresD hpresL hresD hresL
  refine ⟨h', cl, heq, ?_, ?_⟩
  · rw [hc1 nm, hdis, hd]
    simp [dDelSpec, dDelTempSpec, dCreSpec, hinit, hbuf, ht, hiok]
  · rw [hc2 nm, hdis, hd]
    simp [dDelSpec, dCreQSpec, hinit, ht]

/-- Witness for C1 at the concrete scenario hubC1 / snapC1: the rebuilt
d1 carries the old buffer [5, 6], the new init_settings [(b,2)], and a
fresh empty queue replacing the old queue [9]. -/
theorem C1_witness :
    ∃ h' cl, updateSettings F0 snapC1 hubC1 = .ok (h', cl) ∧
      lookupA "d1" h'.dispatchers =
        some { name := "d1", init_settings := [("b", "2")],
               settings := [("pause", "x")], buffer := [5, 6],
               stop := false } ∧
      lookupA "d1" h'.queue = some [] :=
  C1_rebuild_preserves_buffer F0 snapC1 hubC1 "d1" dC1
    ⟨some "EmonHubEmoncmsDispatcher", [("b", "2")], [("pause", "x")]⟩
    "EmonHubEmoncmsDispatcher"
    (by decide) (by decide) (by decide) (by decide) (by decide) (by decide)
    (by decide) (by decide) (by decide) (by decide) (by decide) (by decide)
    (by decide) (by decide)

/-- C2 counterexample: changing only a listener's init_settings (type
unchanged and resolvable) is claimed to take no action, but on the
concrete hub hubC2 and snapshot snapC2 the tick closes l1 (its name is in
the closed list) and replaces its handle: the listener registered for l1
after the tick differs from the one before.  The differing-init branch of
the listener deletion loop executes `pass` and falls through to
close-and-delete, after which the creation loop rebuilds the listener. -/
theorem C2_counterexample :
    updateSettings F0 snapC2 hubC2 = .ok (hubC2x, ["l1"]) ∧
    lookupA "l1" hubC2x.listeners ≠ lookupA "l1" hubC2.listeners := by
  constructor
  · rfl
  · decide

/-- C2 amended: for every live listener whose recorded init_settings
differ from the snapshot's value for its name, a reconcile tick closes
and deletes the old handle and (when the descriptor's type is resolvable
and its constructor accepts the new init_settings) creates a fresh
replacement handle recording the snapshot's init_settings — the same
rebuild dispatchers get, only without buffer preservation.  Stated under
the assumptions that make the tick complete. -/
theorem C2_amended_listener_rebuilt (F : Factories) (s : Snapshot) (h : Hub)
    (nm : String) (l : Listener) (lis : Descriptor) (t : String)
    (hndD : keysNodup h.dispatchers) (hndSD : keysNodup s.dispatchers)
    (hndL : keysNodup h.listeners) (hndSL : keysNodup s.listeners)
    (hpresD : ∀ p ∈ h.dispatchers, (lookupA p.1 s.dispatchers).isSome)
    (hpresL : ∀ p ∈ h.listeners, (lookupA p.1 s.listeners).isSome)
    (hresD : ∀ p ∈ s.dispatchers, ∀ u, p.2.type? = some u → u ∈ F.dispTypes)
    (hresL : ∀ p ∈ s.listeners, ∀ u, p.2.type? = some u → u ∈ F.lisTypes)
    (hl : lookupA nm h.listeners = some l)
    (hlis : lookupA nm s.listeners = some lis)
    (hinit : l.init_settings ≠ lis.init_settings)
    (ht : lis.type? = some t)
    (hiok : F.lisInitOk t lis.init_settings = true) :
    ∃ h' cl, updateSettings F s h = .ok (h', cl) ∧
      nm ∈ cl ∧
      lookupA nm h'.listeners =
        some { name := nm, init_settings := lis.init_settings,
               settings := lis.runtime_settings, closed := false } := by
  obtain ⟨h', cl, heq, _, _, _, hc4, hc5, _, _, _, _⟩ :=
    updateSettings_char F s h hndD hndSD hndL hndSL hpresD hpresL hresD hresL
  refine ⟨h', cl, heq, ?_, ?_⟩
  · exact hc5 nm l lis hl hlis (fun hcon => hinit hcon.1)
  · rw [hc4 nm, hlis, hl]
    simp [lDelSpec, lCreSpec, hinit, ht, hiok]

/-- Witness for the amended C2 at hubC2 / snapC2. -/
theorem C2_amended_witness :
    ∃ h' cl, updateSettings F0 snapC2 hubC2 = .ok (h', cl) ∧
      "l1" ∈ cl ∧
      lookupA "l1" h'.listeners =
        some { name := "l1", init_settings := [("port", "B")],
               settings := [("r", "1")], closed := false } :=
  C2_amended_listener_rebuilt F0 snapC2 hubC2 "l1" lisC2old
    ⟨some "EmonHubSerialListener", [("port", "B")], [("r", "1")]⟩
    "EmonHubSerialListener"
    (by decide) (by decide) (by decide) (by decide) (by decide) (by decide)
    (by decide) (by decide) (by decide) (by decide) (by decide) (by decide)
    (by decide)

/-- C3: during a fan-out pass over a sequence of produced records, a
record lands on a dispatcher's queue exactly when the dispatcher's
runtime settings either contain no 'pause' key or contain a 'pause'
value outside the exact case-sensitive allowlist pauseTruthy
(i, I, in, In, IN, t, T, true, True, TRUE); any other spelling such as
'truE' or 'OUT' is treated as not-paused.  A non-paused dispatcher's
queue receives all produced records appended in produced order; a paused
dispatcher's queue is unchanged. -/
theorem C3_pause_fanout (disp : List (String × Dispatcher)) (hnd : keysNodup disp)
    (nm : String) (d : Dispatcher) (hd : lookupA nm disp = some d)
    (q : List (String × List Rec)) (xs : List Rec) (hq : lookupA nm q = some xs)
    (rs : List Rec) :
    lookupA nm (fanoutAll disp rs q) =
      some (if (match lookupA "pause" d.settings with
                | some v => pauseTruthy.contains v
                | none => false) then xs else xs ++ rs) :=
  fanoutAll_lookup hnd hd hq rs

/-- Witness for C3: a dispatcher with pause value 'truE' (outside the
allowlist) receives both records in order, while one with 'true' (in the
allowlist) receives nothing. -/
theorem C3_witness :
    lookupA "d1" (fanoutAll
      [("d1", { mkDispatcher "d1" [] with settings := [("pause", "truE")] }),
       ("d2", { mkDispatcher "d2" [] with settings := [("pause", "true")] })]
      [1, 2] [("d1", []), ("d2", [])]) = some [1, 2] ∧
    lookupA "d2" (fanoutAll
      [("d1", { mkDispatcher "d1" [] with settings := [("pause", "truE")] }),
       ("d2", { mkDispatcher "d2" [] with settings := [("pause", "true")] })]
      [1, 2] [("d1", []), ("d2", [])]) = some [] := by
  constructor
  · have := C3_pause_fanout
      [("d1", { mkDispatcher "d1" [] with settings := [("pause", "truE")] }),
       ("d2", { mkDispatcher "d2" [] with settings := [("pause", "true")] })]
      (by decide) "d1" { mkDispatcher "d1" [] with settings := [("pause", "truE")] }
      (by decide) [("d1", []), ("d2", [])] [] (by decide) [1, 2]
    simpa using this
  · have := C3_pause_fanout
      [("d1", { mkDispatcher "d1" [] with settings := [("pause", "truE")] }),
       ("d2", { mkDispatcher "d2" [] with settings := [("pause", "true")] })]
      (by decide) "d2" { mkDispatcher "d2" [] with settings := [("pause", "true")] }
      (by decide) [("d1", []), ("d2", [])] [] (by decide) [1, 2]
    simpa using this

/-- C4 evidence: the claim says a failed dispatcher creation is isolated
(logged, skipped, no escaping exception, no queue leak), but the code
puts getattr inside the try while catching only the constructor's
EmonHubDispatcherInitError, and creates the queue before the factory
call without cleaning it up.  On hubEmpty with snapC4 (unknown
dispatcher type) the tick raises AttributeError, and on snapC4b
(constructor rejection) the tick completes but leaves a queue entry for
d1 behind while registering no handle. -/
theorem C4_creation_failure_not_isolated :
    updateSettings F0 snapC4 hubEmpty = .error .attributeError ∧
    updateSettings F0 snapC4b hubEmpty = .ok (hubC4bx, []) ∧
    lookupA "d1" hubC4bx.dispatchers = none ∧
    lookupA "d1" hubC4bx.queue = some [] := ⟨rfl, rfl, rfl, rfl⟩

/-- C5 evidence: the claim says a component whose name is omitted from
the snapshot is deleted and the reconcile completes without raising, but
the deletion loops evaluate settings[section][name]['init_settings']
before any membership test, so a live dispatcher (hubC5) or listener
(hubC5b) whose name is absent from the snapshot (snapEmpty) makes the
tick raise KeyError — contradicting the code's own comment "Delete
dispatchers if setting changed or name is unlisted or type is
missing". -/
theorem C5_omitted_name_raises :
    updateSettings F0 snapEmpty hubC5 = .error .keyError ∧
    updateSettings F0 snapEmpty hubC5b = .error .keyError := ⟨rfl, rfl⟩

/-- C6 counterexample: deleting a dispatcher does not remove its queue.
On hubC6 (live d1 with queue [7]) and snapC6 (type removed), the tick
deletes the handle yet the queue entry for d1 survives with its
contents, so a queue entry exists for a name with no live handle. -/
theorem C6_counterexample :
    updateSettings F0 snapC6 hubC6 = .ok (hubC6x, []) ∧
    lookupA "d1" hubC6x.dispatchers = none ∧
    lookupA "d1" hubC6x.queue = some [7] := ⟨rfl, rfl, rfl⟩

theorem dCreQSpec_isSome {a : Option Descriptor} {b : Option Dispatcher}
    {old : Option (List Rec)} (h : old.isSome) : (dCreQSpec a b old).isSome := by
  cases a with
  | none => simpa [dCreQSpec] using h
  | some dis =>
    cases b with
    | none =>
      by_cases ht : dis.type?.isSome
      · simp [dCreQSpec, ht]
      · simpa [dCreQSpec, ht] using h
    | some d => simpa [dCreQSpec] using h

/-- C6 amended: one direction of the claimed iff holds — after every
successful reconcile tick every live dispatcher name has a queue entry
(the invariant is preserved) — but the other direction fails: queue
entries are never removed.  Deleting a dispatcher leaves its entry
behind and a failed creation leaves the freshly assigned entry behind,
so the set of queue keys only grows across ticks. -/
theorem C6_amended_queue_entries (F : Factories) (s : Snapshot) (h : Hub)
    (hndD : keysNodup h.dispatchers) (hndSD : keysNodup s.dispatchers)
    (hndL : keysNodup h.listeners) (hndSL : keysNodup s.listeners)
    (hpresD : ∀ p ∈ h.dispatchers, (lookupA p.1 s.dispatchers).isSome)
    (hpresL : ∀ p ∈ h.listeners, (lookupA p.1 s.listeners).isSome)
    (hresD : ∀ p ∈ s.dispatchers, ∀ u, p.2.type? = some u → u ∈ F.dispTypes)
    (hresL : ∀ p ∈ s.listeners, ∀ u, p.2.type? = some u → u ∈ F.lisTypes)
    (hq : ∀ nm, (lookupA nm h.dispatchers).isSome → (lookupA nm h.queue).isSome) :
    ∃ h' cl, updateSettings F s h = .ok (h', cl) ∧
      (∀ nm, (lookupA nm h'.dispatchers).isSome → (lookupA nm h'.queue).isSome) ∧
      (∀ nm, (lookupA nm h.queue).isSome → (lookupA nm h'.queue).isSome) := by
  obtain ⟨h', cl, heq, hc1, hc2, _, _, _, _, _, _, _⟩ :=
    updateSettings_char F s h hndD hndSD hndL hndSL hpresD hpresL hresD hresL
  refine ⟨h', cl, heq, ?_, ?_⟩
  · intro nm hsome
    rw [hc1 nm] at hsome
    rw [hc2 nm]
    cases hs : lookupA nm s.dispatchers with
    | none =>
      rw [hs] at hsome
      cases hdl : lookupA nm h.dispatchers with
      | none => rw [hdl] at hsome; simp [dDelSpec, dCreSpec] at hsome
      | some d0 => rw [hdl] at hsome; simp [dDelSpec, dCreSpec] at hsome
    | some dis =>
      rw [hs] at hsome
      cases hdl : lookupA nm h.dispatchers with
      | none =>
        rw [hdl] at hsome
        cases ht : dis.type? with
        | none => simp [dDelSpec, dCreSpec, ht] at hsome
        | some t => simp [dDelSpec, dCreQSpec, ht]
      | some d0 =>
        rw [hdl] at hsome
        by_cases hkeep : d0.init_settings = dis.init_settings ∧ dis.type?.isSome
        · simp only [dDelSpec, if_pos hkeep, dCreQSpec]
          exact hq nm (by simp [hdl])
        · simp only [dDelSpec, if_neg hkeep] at hsome ⊢
          cases ht : dis.type? with
          | none => simp [dCreSpec, ht] at hsome
          | some t => simp [dCreQSpec, ht]
  · intro nm hsome
    rw [hc2 nm]
    exact dCreQSpec_isSome hsome

/-- Witness for the amended C6 at hubC6 / snapC6. -/
theorem C6_amended_witness :
    ∃ h' cl, updateSettings F0 snapC6 hubC6 = .ok (h', cl) ∧
      (∀ nm, (lookupA nm h'.dispatchers).isSome → (lookupA nm h'.queue).isSome) ∧
      (∀ nm, (lookupA nm hubC6.queue).isSome → (lookupA nm h'.queue).isSome) :=
  C6_amended_queue_entries F0 snapC6 hubC6
    (by decide) (by decide) (by decide) (by decide) (by decide) (by decide)
    (by decide) (by decide)
    (fun nm hs => by
      by_cases hnm : "d1" = nm
      · subst hnm
        decide
      · rw [show lookupA nm hubC6.dispatchers = none from
          by simp [hubC6, lookupA, hnm]] at hs
        simp at hs)

/-- C7 counterexample: a dispatcher's retained buffer is lost when the
rebuild's replacement creation fails.  Tick one (snapC7a: init change
whose new init_settings the constructor rejects) deletes d1 and parks
its buffer [5, 6] in temp_buffer; tick two (snapC7b: accepted
init_settings) resets temp_buffer to empty before rebuilding, so the
recreated d1 has an empty buffer and the parked buffer is gone — the
buffer was discarded, not migrated into the replacement. -/
theorem C7_counterexample :
    updateSettings F0 snapC7a hubC7a = .ok (hubC7b, []) ∧
    updateSettings F0 snapC7b hubC7b = .ok (hubC7c, []) ∧
    (lookupA "d1" hubC7a.dispatchers).map Dispatcher.buffer = some [5, 6] ∧
    (lookupA "d1" hubC7c.dispatchers).map Dispatcher.buffer = some [] ∧
    lookupA "d1" hubC7c.temp_buffer = none := ⟨rfl, rfl, rfl, rfl, rfl⟩

/-- C7 amended: on an init_settings-change rebuild whose replacement is
created in the same tick, the whole buffer is migrated (that is C1); but
when the replacement's constructor rejects the new init_settings, the
captured buffer is only parked in the temp_buffer side-table, no live
handle holds it, and since every tick begins by resetting temp_buffer
(the tick's result never depends on the incoming temp_buffer), the
parked buffer is discarded by the next reconcile tick. -/
theorem C7_amended_buffer_parked (F : Factories) (s : Snapshot) (h : Hub)
    (nm : String) (d : Dispatcher) (dis : Descriptor) (t : String)
    (hndD : keysNodup h.dispatchers) (hndSD : keysNodup s.dispatchers)
    (hndL : keysNodup h.listeners) (hndSL : keysNodup s.listeners)
    (hpresD : ∀ p ∈ h.dispatchers, (lookupA p.1 s.dispatchers).isSome)
    (hpresL : ∀ p ∈ h.listeners, (lookupA p.1 s.listeners).isSome)
    (hresD : ∀ p ∈ s.dispatchers, ∀ u, p.2.type? = some u → u ∈ F.dispTypes)
    (hresL : ∀ p ∈ s.listeners, ∀ u, p.2.type? = some u → u ∈ F.lisTypes)
    (hd : lookupA nm h.dispatchers = some d)
    (hdis : lookupA nm s.dispatchers = some dis)
    (hinit : d.init_settings ≠ dis.init_settings)
    (hbuf : d.buffer ≠ [])
    (ht : dis.type? = some t)
    (hiok : F.dispInitOk t dis.init_settings = false) :
    ∃ h' cl, updateSettings F s h = .ok (h', cl) ∧
      lookupA nm h'.dispatchers = none ∧
      lookupA nm h'.temp_buffer = some d.buffer ∧
      (∀ tb, updateSettings F s { h with temp_buffer := tb } =
        updateSettings F s h) := by
  obtain ⟨h', cl, heq, hc1, _, hc3, _, _, _, _, _, _⟩ :=
    updateSettings_char F s h hndD hndSD hndL hndSL hpresD hpresL hresD hresL
  refine ⟨h', cl, heq, ?_, ?_, fun tb => rfl⟩
  · rw [hc1 nm, hdis, hd]
    simp [dDelSpec, dCreSpec, hinit, ht, hiok]
  · rw [hc3 nm, hdis, hd]
    simp [dDelSpec, dDelTempSpec, dCreTempSpec, hinit, hbuf, ht, hiok]

/-- Witness for the amended C7 at hubC7a / snapC7a. -/
theorem C7_amended_witness :
    ∃ h' cl, updateSettings F0 snapC7a hubC7a = .ok (h', cl) ∧
      lookupA "d1" h'.dispatchers = none ∧
      lookupA "d1" h'.temp_buffer = some [5, 6] ∧
      (∀ tb, updateSettings F0 snapC7a { hubC7a with temp_buffer := tb } =
        updateSettings F0 snapC7a hubC7a) :=
  C7_amended_buffer_parked F0 snapC7a hubC7a "d1"
    { mkDispatcher "d1" [("a", "1")] with buffer := [5, 6] }
    ⟨some "EmonHubEmoncmsDispatcher", [("bad", "1")], []⟩
    "EmonHubEmoncmsDispatcher"
    (by decide) (by decide) (by decide) (by decide) (by decide) (by decide)
    (by decide) (by decide) (by decide) (by decide) (by decide) (by decide)
    (by decide) (by decide)

/-- C8: once the exit flag is set by the interrupt handler (sigint
delivered during an iteration), the loop completes that iteration's full
poll sweep (every one of the first pre.length + 1 iterations polls every
live listener exactly once) and performs no further listener polling
afterwards; the loop then exits, and shutdown (close) marks every live
listener closed and sets the stop flag of every live dispatcher.  Stated
for schedules without settings changes, so the listener set is fixed. -/
theorem C8_cooperative_shutdown (F : Factories) (pre : List IterInput)
    (inp : IterInput) (post : List IterInput) (h : Hub)
    (hset : ∀ x ∈ pre, x.settings? = none) (hsetI : inp.settings? = none)
    (hpre : ∀ x ∈ pre, x.sigint = false) (hsig : inp.sigint = true)
    (hex : h.exit = false) :
    ∃ h' polls, runLoop F (pre ++ inp :: post) h = .ok (h', polls) ∧
      polls.length = (pre.length + 1) * h.listeners.length ∧
      h'.exit = true ∧
      (∀ p ∈ (closeHub h').listeners, p.2.closed = true) ∧
      (∀ p ∈ (closeHub h').dispatchers, p.2.stop = true) := by
  obtain ⟨h', polls, heq, _, _, hx, hlen⟩ :=
    runLoop_sigint F pre inp post h hset hsetI hpre hsig hex
  exact ⟨h', polls, heq, hlen, hx, closeHub_listeners_closed h',
    closeHub_dispatchers_stopped h'⟩

/-- Witness for C8: a three-iteration schedule with SIGINT during the
second iteration polls the single listener exactly twice. -/
theorem C8_witness :
    ∃ h' polls, runLoop F0
        [⟨none, [some 3], false⟩, ⟨none, [some 4], true⟩, ⟨none, [some 5], false⟩]
        hubC8 = .ok (h', polls) ∧
      polls.length = (1 + 1) * hubC8.listeners.length ∧
      h'.exit = true ∧
      (∀ p ∈ (closeHub h').listeners, p.2.closed = true) ∧
      (∀ p ∈ (closeHub h').dispatchers, p.2.stop = true) :=
  C8_cooperative_shutdown F0 [⟨none, [some 3], false⟩] ⟨none, [some 4], true⟩
    [⟨none, [some 5], false⟩] hubC8
    (by intro x hx; rw [List.mem_singleton.1 hx]) rfl
    (by intro x hx; rw [List.mem_singleton.1 hx]) rfl rfl

/-- C9 evidence: the fan-out places the very same record object on every
non-paused dispatcher's queue — the embedded fanoutOne distributes the
identical record (identity 42) into both queues, no copy being made
anywhere in the core.  The source comment at line 93 says "Place a copy
of the values in a queue for each dispatcher", but line 100 executes
queue.put(values) with the shared reference, so a mutation through one
queue would be visible through the other. -/
theorem C9_shared_reference :
    fanoutOne [("d1", mkDispatcher "d1" []), ("d2", mkDispatcher "d2" [])] 42
      [("d1", []), ("d2", [])] = [("d1", [42]), ("d2", [42])] := rfl

/-- C10: a reconcile tick whose snapshot has no nodes section leaves the
shared decoding node table exactly as it was, and a tick whose snapshot
carries a nodes section overwrites the table with that section. -/
theorem C10_nodes_section (F : Factories) (s : Snapshot) (h h' : Hub)
    (cl : List String) (hok : updateSettings F s h = .ok (h', cl)) :
    h'.nodelist = match s.nodes? with
                  | some n => some n
                  | none => h.nodelist := by
  unfold updateSettings at hok
  cases e1 : dispDeletePass s.dispatchers h.dispatchers [] with
  | error e => rw [e1] at hok; cases hok
  | ok p1 =>
    obtain ⟨disp1, temp1⟩ := p1
    simp only [e1] at hok
    cases e2 : dispCreatePass F s.dispatchers disp1 h.queue temp1 with
    | error e => rw [e2] at hok; cases hok
    | ok p2 =>
      obtain ⟨disp2, q2, temp2⟩ := p2
      simp only [e2] at hok
      cases e3 : lisDeletePass s.listeners h.listeners [] with
      | error e => rw [e3] at hok; cases hok
      | ok p3 =>
        obtain ⟨lis1, cl0⟩ := p3
        simp only [e3] at hok
        cases e4 : lisCreatePass F s.listeners lis1 with
        | error e => rw [e4] at hok; cases hok
        | ok lis2 =>
          simp only [e4, Except.ok.injEq, Prod.mk.injEq] at hok
          rw [← hok.1]

/-- Witness for C10 on a tick with no nodes section: the previously
published table survives unchanged. -/
theorem C10_witness :
    hubC10.nodelist = (match snapEmpty.nodes? with
                       | some n => some n
                       | none => hubC10.nodelist) :=
  C10_nodes_section F0 snapEmpty hubC10 hubC10 [] rfl

end EmonHub
